import Mathlib

/-!
Shallow embedding of the MCP connection/orchestration core of the repository
(`backend/mcp_manager.py`, class `MCPConnectionManager`), together with proofs
of the behavioural properties stated in the specification.

Modelling conventions:
* Python dicts (`self.connections`, `self.server_config.mcp_servers`,
  `server_tool_mapping`) are association lists with insertion-order
  semantics: `alookup` is key lookup, `dictInsert` is `d[k] = v`
  (update in place if the key exists, append otherwise).
* I/O oracles: the stdio/SSE transport setup (`stdio_client` + `ClientSession`
  handshake + `list_tools`) is a function from the server config to
  `Except String (List MCPTool)`; the remote tool call
  (`session.call_tool`) is a function to `Except String ToolResultContent`;
  the Anthropic completion endpoint (`anthropic.messages.create`) is a
  function from the current message list and the call site
  (main loop / intermediate reflection / final summary — the three call
  sites differ in system prompt and tools offered) to
  `Except String (List ContentBlock)`.  `Except.error e` models a raised
  exception whose `str(e)` is `e`.
* `datetime.now()` is an abstract `Nat` timestamp passed as a parameter.
* Logging (`self.logger`, `self.tool_logger`, `tool_calls_made`) has no
  effect on control flow or results and is not modelled.
-/

/-- Decidable equality for `Except` values (both components decidable). -/
instance {ε α : Type} [DecidableEq ε] [DecidableEq α] : DecidableEq (Except ε α) :=
  fun x y =>
    match x, y with
    | Except.ok a, Except.ok b =>
        if h : a = b then isTrue (by rw [h]) else isFalse (by intro hh; cases hh; exact h rfl)
    | Except.error e, Except.error f =>
        if h : e = f then isTrue (by rw [h]) else isFalse (by intro hh; cases hh; exact h rfl)
    | Except.ok _, Except.error _ => isFalse (by intro hh; cases hh)
    | Except.error _, Except.ok _ => isFalse (by intro hh; cases hh)

/-- Character-list version of Python's `str.startswith`. -/
def charsStartWith : List Char → List Char → Bool
  | _, [] => true
  | [], _ :: _ => false
  | c :: cs, p :: ps => c == p && charsStartWith cs ps

/-- Python's `s.startswith(p)`. -/
def strStartsWith (s p : String) : Bool := charsStartWith s.data p.data

/-- Association-list lookup with Python-dict semantics (`d.get(k)` / `k in d`). -/
def alookup {α : Type} : List (String × α) → String → Option α
  | [], _ => none
  | (k0, v) :: rest, k => if k0 = k then some v else alookup rest k

/-- Python dict assignment `d[k] = v`: updates in place when the key exists,
appends at the end otherwise (insertion-order semantics). -/
def dictInsert {α : Type} : List (String × α) → String → α → List (String × α)
  | [], k, v => [(k, v)]
  | (k0, v0) :: rest, k, v =>
      if k0 = k then (k, v) :: rest else (k0, v0) :: dictInsert rest k v

/-- Number of entries stored under key `k`. -/
def countKey {α : Type} (l : List (String × α)) (k : String) : Nat :=
  (l.filter (fun p => p.1 = k)).length

/-- A tool descriptor as stored at connect time
(`{"name": ..., "description": ..., "input_schema": ...}`). -/
structure MCPTool where
  name : String
  description : String
  input_schema : String
  deriving Repr, DecidableEq

/-- `MCPServerConfig` from `config.py` (the fields `mcp_manager.py` reads). -/
structure MCPServerConfig where
  name : String
  description : String
  command : String
  args : List String
  enabled : Bool
  deriving Repr, DecidableEq

/-- `MCPConnection`: one active connection.  The live `session`/`stdio`/
`write`/`exit_stack` handles are I/O resources abstracted away; the fields
that the manager's logic reads are kept. -/
structure MCPConnection where
  config : MCPServerConfig
  connected_at : Nat
  tools : List MCPTool
  connection_type : String
  url : Option String
  deriving Repr, DecidableEq

/-- The mutable state of `MCPConnectionManager`: the static config mapping
`server_config.mcp_servers` and the live mapping `self.connections`. -/
structure ManagerState where
  mcp_servers : List (String × MCPServerConfig)
  connections : List (String × MCPConnection)
  deriving Repr, DecidableEq

/-- Transport oracle for `connect_to_server`: runs the stdio transport setup,
session handshake and `list_tools` for a config; `Except.error e` models any
exception raised during setup with message `e`. -/
abbrev StdioTransport := MCPServerConfig → Except String (List MCPTool)

/-- Transport oracle for `connect_to_sse_server` (a function of the URL). -/
abbrev SseTransport := String → Except String (List MCPTool)

/-- `MCPConnectionManager.connect_to_server`.  Returns the new state and the
boolean result, or the raised exception's message. -/
def connect_to_server (transport : StdioTransport) (now : Nat)
    (st : ManagerState) (server_name : String) :
    Except String (ManagerState × Bool) :=
  if (alookup st.connections server_name).isSome then
    Except.ok (st, true)  -- Already connected
  else
    match alookup st.mcp_servers server_name with
    | none =>
        Except.error ("Server \x27" ++ server_name ++ "\x27 not found in configuration")
    | some config =>
        if ¬ config.enabled then
          Except.error ("Server \x27" ++ server_name ++ "\x27 is disabled")
        else
          match transport config with
          | Except.error e =>
              Except.error ("Failed to connect to server \x27" ++ server_name ++ "\x27: " ++ e)
          | Except.ok tools =>
              Except.ok
                ({ st with
                    connections := dictInsert st.connections server_name
                      { config := config
                        connected_at := now
                        tools := tools
                        connection_type := "stdio"
                        url := none } },
                 true)

/-- `MCPConnectionManager.connect_to_sse_server` (success-relevant logic; the
several diagnostic rewordings of the raised message are collapsed into the
transport oracle's message).  Note that the synthesized minimal config is
stored only inside the connection, never added to `mcp_servers`. -/
def connect_to_sse_server (transport : SseTransport) (now : Nat)
    (st : ManagerState) (server_name server_url : String) :
    Except String (ManagerState × Bool) :=
  if (alookup st.connections server_name).isSome then
    Except.ok (st, true)  -- Already connected
  else
    if ¬ (strStartsWith server_url "http://" || strStartsWith server_url "https://") then
      Except.error ("Invalid URL format: " ++ server_url ++
        ". URL must start with http:// or https://")
    else
      match transport server_url with
      | Except.error e =>
          Except.error ("Failed to connect to SSE server \x27" ++ server_name ++
            "\x27 at " ++ server_url ++ ": " ++ e)
      | Except.ok tools =>
          Except.ok
            ({ st with
                connections := dictInsert st.connections server_name
                  { config :=
                      { name := server_name
                        description := "SSE server at " ++ server_url
                        command := ""
                        args := []
                        enabled := true }
                    connected_at := now
                    tools := tools
                    connection_type := "sse"
                    url := some server_url } },
             true)

/-- `MCPConnectionManager.get_connected_servers`. -/
def get_connected_servers (st : ManagerState) : List String :=
  st.connections.map Prod.fst

/-- The record returned by `get_server_info` (optional fields are present
only when the server is connected). -/
structure ServerInfo where
  name : String
  description : String
  enabled : Bool
  connected : Bool
  connected_at : Option Nat
  tools : Option (List MCPTool)
  tool_count : Option Nat
  deriving Repr, DecidableEq

/-- `MCPConnectionManager.get_server_info`. -/
def get_server_info (st : ManagerState) (server_name : String) :
    Except String ServerInfo :=
  match alookup st.mcp_servers server_name with
  | none => Except.error ("Server \x27" ++ server_name ++ "\x27 not found")
  | some config =>
      match alookup st.connections server_name with
      | none =>
          Except.ok
            { name := config.name
              description := config.description
              enabled := config.enabled
              connected := false
              connected_at := none
              tools := none
              tool_count := none }
      | some connection =>
          Except.ok
            { name := config.name
              description := config.description
              enabled := config.enabled
              connected := true
              connected_at := some connection.connected_at
              tools := some connection.tools
              tool_count := some connection.tools.length }

/-- A `tool_use` content block emitted by the model (name, input, id). -/
structure ToolCall where
  name : String
  input : String
  id : String
  deriving Repr, DecidableEq

/-- One content block of a completion response: a text block or a tool-use
request. -/
inductive ContentBlock where
  | text (t : String)
  | toolUse (tc : ToolCall)
  deriving Repr, DecidableEq

/-- One `tool_result` entry fed back to the model.  `is_error` records the
`"is_error": True` tag attached to failed invocations (absent on success). -/
structure ToolResult where
  tool_use_id : String
  content : String
  is_error : Bool
  deriving Repr, DecidableEq

/-- Content of one conversation-history message: the initial plain-text user
query, an assistant response (its content blocks), or a user message carrying
tool results. -/
inductive MessageContent where
  | text (t : String)
  | blocks (bs : List ContentBlock)
  | toolResults (rs : List ToolResult)
  deriving Repr, DecidableEq

/-- One role-tagged entry of the conversation history. -/
structure Message where
  role : String
  content : MessageContent
  deriving Repr, DecidableEq

/-- The three `anthropic.messages.create` call sites of the orchestrator,
which differ in system prompt and tools offered: the main loop call (full
tool list, `tool_choice=auto`), the intermediate chained-mode reflection
call (`tools=[]`), and the end-of-loop summary call (no tools). -/
inductive LLMCallKind where
  | main
  | reflect
  | summary
  deriving Repr, DecidableEq

/-- Completion oracle: given the messages sent and the call site, returns the
response content blocks, or the message of the exception the SDK call raised. -/
abbrev LLM := List Message → LLMCallKind → Except String (List ContentBlock)

/-- Shape of `result.content` returned by `session.call_tool`: either a list
of items (each contributing its `.text`, or its string rendering) or a
single value rendered with `str`. -/
inductive ToolResultContent where
  | items (l : List String)
  | raw (s : String)
  deriving Repr, DecidableEq

/-- The `content_str` formatting applied to a tool result before feeding it
to the model. -/
def formatContent : ToolResultContent → String
  | ToolResultContent.items l => String.intercalate "\n" l
  | ToolResultContent.raw s => s

/-- Remote-call oracle for `session.call_tool` on a connected server:
(server, tool, arguments) to result content, or the raised exception's
message. -/
abbrev Invoke := String → String → String → Except String ToolResultContent

/-- `MCPConnectionManager.execute_tool` (logging dropped): raises if the
server has no live connection, otherwise calls the tool and wraps any
exception from the call. -/
def execute_tool (invoke : Invoke) (conns : List String)
    (server_name tool_name arguments : String) : Except String ToolResultContent :=
  if ¬ conns.contains server_name then
    Except.error ("Not connected to server \x27" ++ server_name ++ "\x27")
  else
    match invoke server_name tool_name arguments with
    | Except.ok result => Except.ok result
    | Except.error e =>
        Except.error ("Tool execution failed on server \x27" ++ server_name ++ "\x27: " ++ e)

/-- The tool-use blocks of a response, in emission order
(`[c for c in response.content if c.type == 'tool_use']`). -/
def toolUsesOf (bs : List ContentBlock) : List ToolCall :=
  bs.filterMap (fun b => match b with
    | ContentBlock.toolUse tc => some tc
    | ContentBlock.text _ => none)

/-- The text segments of a response, in order. -/
def textsOf (bs : List ContentBlock) : List String :=
  bs.filterMap (fun b => match b with
    | ContentBlock.text t => some t
    | ContentBlock.toolUse _ => none)

/-- `"\n".join(text_content)`. -/
def joinTexts (bs : List ContentBlock) : String :=
  String.intercalate "\n" (textsOf bs)

/-- The user message appending one tool result to the history
(`{"role": "user", "content": [tool_result]}`). -/
def userToolResultMsg (r : ToolResult) : Message :=
  { role := "user", content := MessageContent.toolResults [r] }

/-- An assistant history entry holding a response's content blocks. -/
def assistantMsg (bs : List ContentBlock) : Message :=
  { role := "assistant", content := MessageContent.blocks bs }

/-- The inner loop of tool collection: `for tool in connection.tools:` append
the tool to `available_tools` and store `server_tool_mapping[name] = n`. -/
def addServerTools (n : String) (ts : List MCPTool)
    (acc : List MCPTool × List (String × String)) :
    List MCPTool × List (String × String) :=
  ts.foldl (fun acc t => (acc.1 ++ [t], dictInsert acc.2 t.name n)) acc

/-- Tool collection of `process_query_with_claude`: walks the requested
server names in order; for each connected one appends its tools to
`available_tools` and writes `server_tool_mapping[tool_name] = server_name`
(a plain dict store, so a later server silently overwrites an earlier
server's entry for an identically named tool). -/
def collectToolsAux (conns : List (String × MCPConnection)) :
    List String → List MCPTool → List (String × String) →
    List MCPTool × List (String × String)
  | [], tools, mapping => (tools, mapping)
  | n :: rest, tools, mapping =>
      match alookup conns n with
      | none => collectToolsAux conns rest tools mapping
      | some c =>
          let step := addServerTools n c.tools (tools, mapping)
          collectToolsAux conns rest step.1 step.2

/-- `available_tools` and `server_tool_mapping` for a query. -/
def collectTools (conns : List (String × MCPConnection)) (server_names : List String) :
    List MCPTool × List (String × String) :=
  collectToolsAux conns server_names [] []

/-- Observable actions of the per-response tool-call processors, recorded in
program order: an `execute_tool` dispatch, a `messages.append`, and an
intermediate reflection completion request. -/
inductive ChainEvent where
  | invokeTool (server tool : String)
  | appendHistory (m : Message)
  | reflect
  deriving Repr, DecidableEq

/-- `MCPConnectionManager._process_chained_tool_calls`.  Mirrors the source's
control flow: for each requested call in order, look up its server; on
success append the result immediately and, when further calls remain
(`i < len - 1`), issue a no-tools reflection completion and append it; the
`try` block spans both the execution and the reflection call, so an
exception from either is caught and appended as an error-tagged result; a
lookup miss appends an error result directly.  Returns the final message
list and the event trace. -/
def processChainedToolCalls (llm : LLM) (invoke : Invoke) (conns : List String)
    (mapping : List (String × String)) :
    List ToolCall → List Message → List Message × List ChainEvent
  | [], messages => (messages, [])
  | tc :: rest, messages =>
      match alookup mapping tc.name with
      | some server_name =>
          if server_name ≠ "" ∧ conns.contains server_name then
            match execute_tool invoke conns server_name tc.name tc.input with
            | Except.ok result =>
                let r : ToolResult :=
                  { tool_use_id := tc.id, content := formatContent result, is_error := false }
                let messages1 := messages ++ [userToolResultMsg r]
                if rest.isEmpty then
                  let next := processChainedToolCalls llm invoke conns mapping rest messages1
                  (next.1,
                   ChainEvent.invokeTool server_name tc.name ::
                   ChainEvent.appendHistory (userToolResultMsg r) :: next.2)
                else
                  match llm messages1 LLMCallKind.reflect with
                  | Except.ok ir =>
                      let messages2 := messages1 ++ [assistantMsg ir]
                      let next := processChainedToolCalls llm invoke conns mapping rest messages2
                      (next.1,
                       ChainEvent.invokeTool server_name tc.name ::
                       ChainEvent.appendHistory (userToolResultMsg r) ::
                       ChainEvent.reflect ::
                       ChainEvent.appendHistory (assistantMsg ir) :: next.2)
                  | Except.error e =>
                      -- the reflection call sits inside the same `try`:
                      -- its exception is caught and recorded as a tool error
                      let er : ToolResult :=
                        { tool_use_id := tc.id
                          content := "Error: Tool execution failed: " ++ e
                          is_error := true }
                      let messages2 := messages1 ++ [userToolResultMsg er]
                      let next := processChainedToolCalls llm invoke conns mapping rest messages2
                      (next.1,
                       ChainEvent.invokeTool server_name tc.name ::
                       ChainEvent.appendHistory (userToolResultMsg r) ::
                       ChainEvent.reflect ::
                       ChainEvent.appendHistory (userToolResultMsg er) :: next.2)
            | Except.error e =>
                let er : ToolResult :=
                  { tool_use_id := tc.id
                    content := "Error: Tool execution failed: " ++ e
                    is_error := true }
                let messages1 := messages ++ [userToolResultMsg er]
                let next := processChainedToolCalls llm invoke conns mapping rest messages1
                (next.1,
                 ChainEvent.invokeTool server_name tc.name ::
                 ChainEvent.appendHistory (userToolResultMsg er) :: next.2)
          else
            let er : ToolResult :=
              { tool_use_id := tc.id
                content := "Error: Server \x27" ++ server_name ++
                  "\x27 not connected or tool not found"
                is_error := true }
            let messages1 := messages ++ [userToolResultMsg er]
            let next := processChainedToolCalls llm invoke conns mapping rest messages1
            (next.1, ChainEvent.appendHistory (userToolResultMsg er) :: next.2)
      | none =>
          -- server_tool_mapping.get(tool_name) is None; the f-string renders it
          let er : ToolResult :=
            { tool_use_id := tc.id
              content := "Error: Server \x27None\x27 not connected or tool not found"
              is_error := true }
          let messages1 := messages ++ [userToolResultMsg er]
          let next := processChainedToolCalls llm invoke conns mapping rest messages1
          (next.1, ChainEvent.appendHistory (userToolResultMsg er) :: next.2)

/-- `MCPConnectionManager._process_batch_tool_calls`: executes every
requested call in order, collecting each result (success or error-tagged)
into one list and touching neither the history nor the completion endpoint;
also returns the event trace (dispatches only). -/
def processBatchToolCalls (invoke : Invoke) (conns : List String)
    (mapping : List (String × String)) :
    List ToolCall → List ToolResult × List ChainEvent
  | [] => ([], [])
  | tc :: rest =>
      match alookup mapping tc.name with
      | some server_name =>
          if server_name ≠ "" ∧ conns.contains server_name then
            match execute_tool invoke conns server_name tc.name tc.input with
            | Except.ok result =>
                let r : ToolResult :=
                  { tool_use_id := tc.id, content := formatContent result, is_error := false }
                let next := processBatchToolCalls invoke conns mapping rest
                (r :: next.1, ChainEvent.invokeTool server_name tc.name :: next.2)
            | Except.error e =>
                let er : ToolResult :=
                  { tool_use_id := tc.id
                    content := "Error: Tool execution failed: " ++ e
                    is_error := true }
                let next := processBatchToolCalls invoke conns mapping rest
                (er :: next.1, ChainEvent.invokeTool server_name tc.name :: next.2)
          else
            let er : ToolResult :=
              { tool_use_id := tc.id
                content := "Error: Server \x27" ++ server_name ++
                  "\x27 not connected or tool not found"
                is_error := true }
            let next := processBatchToolCalls invoke conns mapping rest
            (er :: next.1, next.2)
      | none =>
          let er : ToolResult :=
            { tool_use_id := tc.id
              content := "Error: Server \x27None\x27 not connected or tool not found"
              is_error := true }
          let next := processBatchToolCalls invoke conns mapping rest
          (er :: next.1, next.2)

/-- Result of the outer `while iteration < max_iterations` loop:
`final = some f` when the loop `break`s with `final_response = f`, `none`
when the loop exits by exhausting the iteration bound; `messages` is the
history at loop exit and `iterations` the final value of `iteration`. -/
structure LoopResult where
  final : Option String
  messages : List Message
  iterations : Nat
  deriving Repr, DecidableEq

/-- The outer loop of `process_query_with_claude`, structurally recursive on
the remaining iteration budget (`max_iterations - iteration`).  Each pass:
one main completion call (its exception propagates), append the assistant
response, and either `break` with the joined text (no tool uses), process the
tool calls chained (appending results and reflections inside), or process
them batched and append the combined results once. -/
def processLoopFuel (llm : LLM) (invoke : Invoke) (conns : List String)
    (mapping : List (String × String)) (enable_chaining : Bool) :
    Nat → List Message → Except String LoopResult
  | 0, messages => Except.ok { final := none, messages := messages, iterations := 0 }
  | fuel + 1, messages => do
      let rsp ← llm messages LLMCallKind.main
      let messages1 := messages ++ [assistantMsg rsp]
      let tcs := toolUsesOf rsp
      if tcs.isEmpty then
        Except.ok { final := some (joinTexts rsp), messages := messages1, iterations := 1 }
      else if enable_chaining then
        let step := processChainedToolCalls llm invoke conns mapping tcs messages1
        let out ← processLoopFuel llm invoke conns mapping enable_chaining fuel step.1
        Except.ok { final := out.final, messages := out.messages,
                    iterations := out.iterations + 1 }
      else
        let results := (processBatchToolCalls invoke conns mapping tcs).1
        if ¬ results.isEmpty then
          let messages2 := messages1 ++
            [{ role := "user", content := MessageContent.toolResults results }]
          let out ← processLoopFuel llm invoke conns mapping enable_chaining fuel messages2
          Except.ok { final := out.final, messages := out.messages,
                      iterations := out.iterations + 1 }
        else
          Except.ok { final := some (joinTexts rsp), messages := messages1, iterations := 1 }

/-- `final_response_call.content[0].text`: raises IndexError on an empty
content list and AttributeError when the first block is not a text block. -/
def content0text (bs : List ContentBlock) : Except String String :=
  match bs with
  | [] => Except.error "list index out of range"
  | ContentBlock.text t :: _ => Except.ok t
  | ContentBlock.toolUse _ :: _ =>
      Except.error "ToolUseBlock object has no attribute text"

/-- The fixed iteration ceiling (`max_iterations = 10`). -/
def max_iterations : Nat := 10

/-- The body of the `try` block of `process_query_with_claude`: run the outer
loop from the seeded history; if the final value of `iteration` reached the
ceiling, replace the answer by one summary completion without tools (whose
exception propagates); an `Except.error` here models an exception reaching
the enclosing `except` handler. -/
def process_query_attempt (llm : LLM) (invoke : Invoke) (conns : List String)
    (mapping : List (String × String)) (enable_chaining : Bool)
    (query : String) : Except String String := do
  let out ← processLoopFuel llm invoke conns mapping enable_chaining max_iterations
    [{ role := "user", content := MessageContent.text query }]
  if out.iterations ≥ max_iterations then
    let rsp ← llm out.messages LLMCallKind.summary
    content0text rsp
  else
    match out.final with
    | some f => Except.ok f
    | none =>
        -- unreachable: the loop returns `none` only with the budget exhausted
        Except.error "local variable \x27final_response\x27 referenced before assignment"

/-- The fixed sentinel answer for an empty server selection. -/
def noServersMsg : String :=
  "No MCP servers are connected. Please connect to at least one server first."

/-- `MCPConnectionManager.process_query_with_claude`: resolves the server
selection (`None` defaults to the connected servers; an empty selection
returns the sentinel), collects tools and the tool-to-server lookup table,
runs the conversation loop, and converts any exception escaping the `try`
block into the `"Error processing query: ..."` string. -/
def process_query_with_claude (llm : LLM) (invoke : Invoke) (st : ManagerState)
    (query : String) (server_names : Option (List String))
    (enable_chaining : Bool) : String :=
  let names := match server_names with
    | none => get_connected_servers st
    | some l => l
  if names.isEmpty then noServersMsg
  else
    let collected := collectTools st.connections names
    if collected.1.isEmpty then "No tools available from the specified servers."
    else
      let conns := st.connections.map Prod.fst
      match process_query_attempt llm invoke conns collected.2 enable_chaining query with
      | Except.ok s => s
      | Except.error e => "Error processing query: " ++ e

/-! ### Concrete fixtures used by witnesses and counterexamples -/

/-- A demo tool advertised by the demo server. -/
def echoTool : MCPTool := { name := "echo", description := "echo a string", input_schema := "obj" }

/-- Config of the demo server. -/
def demoCfg : MCPServerConfig :=
  { name := "demo", description := "demo server", command := "run", args := [], enabled := true }

/-- A live connection to the demo server holding one tool. -/
def demoConn : MCPConnection :=
  { config := demoCfg, connected_at := 3, tools := [echoTool]
    connection_type := "stdio", url := none }

/-- A manager state with the demo server configured and connected. -/
def stDemo : ManagerState :=
  { mcp_servers := [("demo", demoCfg)], connections := [("demo", demoConn)] }

/-- A completion stub that always answers with plain text and no tool uses. -/
def helloLLM : LLM := fun _ _ => Except.ok [ContentBlock.text "HELLO"]

/-- A remote-call stub that fails every tool invocation. -/
def failInvoke : Invoke := fun _ _ _ => Except.error "boom"

/-- A remote-call stub that answers every tool invocation with `"ok"`. -/
def okInvoke : Invoke := fun _ _ _ => Except.ok (ToolResultContent.raw "ok")

/-- A remote-call stub that fails exactly the tool named `"b"`. -/
def failBInvoke : Invoke := fun _ tool _ =>
  if tool = "b" then Except.error "boom" else Except.ok (ToolResultContent.raw ("R" ++ tool))

/-- A completion stub whose first main-loop response requests the `echo` tool
twice, whose intermediate reflection calls raise, and whose second main-loop
response is plain text. -/
def reflectFailLLM : LLM := fun ms k =>
  match k with
  | LLMCallKind.reflect => Except.error "boom"
  | LLMCallKind.summary => Except.ok [ContentBlock.text "SUMMARY"]
  | LLMCallKind.main =>
      if ms.length ≤ 1 then
        Except.ok [ContentBlock.toolUse { name := "echo", input := "x", id := "id1" },
                   ContentBlock.toolUse { name := "echo", input := "y", id := "id2" }]
      else Except.ok [ContentBlock.text "DONE"]

/-- A completion stub that requests a tool call in every main-loop response
and answers reflection/summary calls with the fixed text `"SUMMARY"`. -/
def alwaysToolLLM : LLM := fun _ k =>
  match k with
  | LLMCallKind.main =>
      Except.ok [ContentBlock.toolUse { name := "echo", input := "x", id := "id" }]
  | _ => Except.ok [ContentBlock.text "SUMMARY"]

/-- A completion stub answering every call with the fixed text `"refl"`. -/
def reflLLM : LLM := fun _ _ => Except.ok [ContentBlock.text "refl"]

/-- A completion stub whose first call fails. -/
def errorLLM : LLM := fun _ _ => Except.error "down"

/-- A completion stub whose first main-loop response requests the `echo`
tool and whose second main-loop call raises. -/
def failLaterLLM : LLM := fun ms k =>
  match k with
  | LLMCallKind.main =>
      if ms.length ≤ 1 then
        Except.ok [ContentBlock.toolUse { name := "echo", input := "x", id := "id" }]
      else Except.error "down2"
  | _ => Except.ok [ContentBlock.text "r"]

/-- A completion stub that requests the `echo` tool in every main-loop
response and whose end-of-loop summary call raises. -/
def summaryFailLLM : LLM := fun _ k =>
  match k with
  | LLMCallKind.main =>
      Except.ok [ContentBlock.toolUse { name := "echo", input := "x", id := "id" }]
  | LLMCallKind.reflect => Except.ok [ContentBlock.text "r"]
  | LLMCallKind.summary => Except.error "sumboom"

/-- The manager state produced by a successful ad hoc SSE connect of an
unconfigured server name: the connection exists, the config mapping has no
entry for it. -/
def ghostState : ManagerState :=
  { mcp_servers := []
    connections := [("ghost",
      { config := { name := "ghost", description := "SSE server at http://g"
                    command := "", args := [], enabled := true }
        connected_at := 7, tools := [], connection_type := "sse"
        url := some "http://g" })] }

/-- The successful tool result recorded for one tool call (used to abbreviate
theorem statements about the processors). -/
def okToolResult (tc : ToolCall) (r : ToolResultContent) : ToolResult :=
  { tool_use_id := tc.id, content := formatContent r, is_error := false }

/-- The error-tagged tool result recorded for one failed tool call (used to
abbreviate theorem statements about the processors). -/
def errToolResult (i c : String) : ToolResult :=
  { tool_use_id := i, content := c, is_error := true }

/-- The single combined user entry carrying a batch's collected results. -/
def userResultsMsg (rs : List ToolResult) : Message :=
  { role := "user", content := MessageContent.toolResults rs }

/-- A completion stub whose main-loop responses request the three tools
a, b, c in one batch. -/
def batchWitnessLLM : LLM := fun _ k =>
  match k with
  | LLMCallKind.main =>
      Except.ok [ContentBlock.toolUse { name := "a", input := "ia", id := "1" },
                 ContentBlock.toolUse { name := "b", input := "ib", id := "2" },
                 ContentBlock.toolUse { name := "c", input := "ic", id := "3" }]
  | _ => Except.ok [ContentBlock.text "SUMMARY"]

/-! ### Basic lemmas about the dict model -/

theorem alookup_append {α : Type} (l1 l2 : List (String × α)) (k : String) :
    alookup (l1 ++ l2) k =
      match alookup l1 k with
      | some v => some v
      | none => alookup l2 k := by
  induction l1 with
  | nil => simp [alookup]
  | cons p rest ih =>
      obtain ⟨k0, v0⟩ := p
      by_cases h : k0 = k <;> simp [alookup, h, ih]

theorem dictInsert_of_alookup_none {α : Type} (l : List (String × α)) (k : String)
    (v : α) (h : alookup l k = none) : dictInsert l k v = l ++ [(k, v)] := by
  induction l with
  | nil => simp [dictInsert]
  | cons p rest ih =>
      obtain ⟨k0, v0⟩ := p
      by_cases hk : k0 = k
      · simp [alookup, hk] at h
      · simp [alookup, hk] at h
        simp [dictInsert, hk, ih h]

theorem countKey_eq_zero_of_alookup_none {α : Type} (l : List (String × α))
    (k : String) (h : alookup l k = none) : countKey l k = 0 := by
  induction l with
  | nil => simp [countKey]
  | cons p rest ih =>
      obtain ⟨k0, v0⟩ := p
      by_cases hk : k0 = k
      · simp [alookup, hk] at h
      · simp [alookup, hk] at h
        simpa [countKey, List.filter, hk] using ih h

theorem countKey_append {α : Type} (l1 l2 : List (String × α)) (k : String) :
    countKey (l1 ++ l2) k = countKey l1 k + countKey l2 k := by
  simp [countKey, List.filter_append]

theorem alookup_dictInsert {α : Type} (l : List (String × α)) (k k2 : String) (v : α) :
    alookup (dictInsert l k v) k2 = if k = k2 then some v else alookup l k2 := by
  induction l with
  | nil => simp [dictInsert, alookup]
  | cons p rest ih =>
      obtain ⟨k0, v0⟩ := p
      by_cases hk : k0 = k
      · subst hk
        by_cases h2 : k0 = k2 <;> simp [dictInsert, alookup, h2]
      · by_cases h2 : k0 = k2
        · subst h2
          simp [dictInsert, alookup, hk, Ne.symm hk]
        · simp [dictInsert, alookup, hk, h2, ih]

/-! ### Registry-level claims -/

/-- Claim C5, counterexample: with `server_names = []` (the empty list) and a
connected server available, `process` does not default the selection to the
connected servers — it returns the no-servers sentinel, while a call that is
actually given the connected-server list returns the model's answer. -/
theorem empty_list_server_names_cex :
    get_connected_servers stDemo = ["demo"] ∧
    process_query_with_claude helloLLM failInvoke stDemo "q" (some []) true = noServersMsg ∧
    process_query_with_claude helloLLM failInvoke stDemo "q"
      (some (get_connected_servers stDemo)) true = "HELLO" := by
  refine ⟨rfl, rfl, rfl⟩

/-- Claim C5 (amended): the server selection defaults to all currently
connected servers only when `server_names` is omitted (`None`); if that
default is empty the fixed sentinel is returned without raising; when
`server_names` is the empty list, `process` returns the sentinel regardless
of which servers are connected. -/
theorem server_names_default_amended :
    (∀ (llm : LLM) (invoke : Invoke) (st : ManagerState) (q : String) (ch : Bool),
      process_query_with_claude llm invoke st q none ch =
        process_query_with_claude llm invoke st q (some (get_connected_servers st)) ch) ∧
    (∀ (llm : LLM) (invoke : Invoke) (st : ManagerState) (q : String) (ch : Bool),
      st.connections = [] →
      process_query_with_claude llm invoke st q none ch = noServersMsg) ∧
    (∀ (llm : LLM) (invoke : Invoke) (st : ManagerState) (q : String) (ch : Bool),
      process_query_with_claude llm invoke st q (some []) ch = noServersMsg) := by
  refine ⟨fun llm invoke st q ch => rfl, fun llm invoke st q ch h => ?_,
    fun llm invoke st q ch => rfl⟩
  simp [process_query_with_claude, get_connected_servers, h]

/-- Claim C5 (amended), witness instantiation. -/
theorem server_names_default_amended_witness :
    process_query_with_claude helloLLM failInvoke stDemo "q" none true =
      process_query_with_claude helloLLM failInvoke stDemo "q"
        (some (get_connected_servers stDemo)) true ∧
    process_query_with_claude helloLLM failInvoke ⟨[], []⟩ "q" none true = noServersMsg ∧
    process_query_with_claude helloLLM failInvoke stDemo "q" (some []) true = noServersMsg :=
  ⟨server_names_default_amended.1 helloLLM failInvoke stDemo "q" true,
   server_names_default_amended.2.1 helloLLM failInvoke ⟨[], []⟩ "q" true rfl,
   server_names_default_amended.2.2 helloLLM failInvoke stDemo "q" true⟩

/-- Claim C6, counterexample: an ad hoc SSE connect stores a connection whose
name is absent from the configuration mapping; a subsequent `connect` call on
that name succeeds (the already-connected check precedes the configuration
lookup) instead of failing with the not-found error the claim requires. -/
theorem connect_unconfigured_connected_cex :
    connect_to_sse_server (fun _ => Except.ok []) 7 ⟨[], []⟩ "ghost" "http://g" =
      Except.ok (ghostState, true) ∧
    alookup ghostState.mcp_servers "ghost" = none ∧
    connect_to_server (fun _ => Except.error "no transport") 0 ghostState "ghost" =
      Except.ok (ghostState, true) := by
  refine ⟨by rfl, by rfl, by rfl⟩

/-- Claim C6 (amended): for every server name neither present in the
configuration mapping nor currently connected, `connect` fails with the
not-found error; the raising path produces no successor state, so the
mapping of connected servers is unchanged by the call. -/
theorem connect_not_found_amended (transport : StdioTransport) (now : Nat)
    (st : ManagerState) (server_name : String)
    (hconn : alookup st.connections server_name = none)
    (hcfg : alookup st.mcp_servers server_name = none) :
    connect_to_server transport now st server_name =
      Except.error ("Server \x27" ++ server_name ++ "\x27 not found in configuration") := by
  simp [connect_to_server, hconn, hcfg]

/-- Claim C6 (amended), witness instantiation. -/
theorem connect_not_found_amended_witness :
    connect_to_server (fun _ => Except.ok []) 0 stDemo "nosuch" =
      Except.error ("Server \x27" ++ "nosuch" ++ "\x27 not found in configuration") :=
  connect_not_found_amended (fun _ => Except.ok []) 0 stDemo "nosuch" rfl rfl

/-- Claim C7: for a configured, enabled, not-yet-connected server whose
transport setup succeeds, `connect` returns `true`; a second `connect` with
no intervening disconnect returns `true` again, leaves the state untouched,
and the registry holds exactly one connection entry under that name. -/
theorem connect_idempotent (transport : StdioTransport) (now now2 : Nat)
    (st : ManagerState) (server_name : String) (config : MCPServerConfig)
    (tools : List MCPTool)
    (hcfg : alookup st.mcp_servers server_name = some config)
    (hen : config.enabled = true)
    (hnew : alookup st.connections server_name = none)
    (htr : transport config = Except.ok tools) :
    ∃ st1, connect_to_server transport now st server_name = Except.ok (st1, true) ∧
      connect_to_server transport now2 st1 server_name = Except.ok (st1, true) ∧
      countKey st1.connections server_name = 1 := by
  refine ⟨{ st with connections := st.connections ++
      [(server_name, { config := config, connected_at := now, tools := tools
                       connection_type := "stdio", url := none })] }, ?_, ?_, ?_⟩
  · simp [connect_to_server, hnew, hcfg, hen, htr,
      dictInsert_of_alookup_none st.connections server_name _ hnew]
  · have h1 : alookup (st.connections ++
        [(server_name, ({ config := config, connected_at := now, tools := tools
                          connection_type := "stdio", url := none } : MCPConnection))])
        server_name = some { config := config, connected_at := now, tools := tools
                             connection_type := "stdio", url := none } := by
      rw [alookup_append, hnew]; simp [alookup]
    simp [connect_to_server, h1]
  · simp only []
    rw [countKey_append, countKey_eq_zero_of_alookup_none st.connections server_name hnew]
    simp [countKey]

/-- Claim C7, witness instantiation. -/
theorem connect_idempotent_witness :
    ∃ st1, connect_to_server (fun _ => Except.ok [echoTool]) 5 ⟨[("demo", demoCfg)], []⟩
        "demo" = Except.ok (st1, true) ∧
      connect_to_server (fun _ => Except.ok [echoTool]) 8 st1 "demo" =
        Except.ok (st1, true) ∧
      countKey st1.connections "demo" = 1 :=
  connect_idempotent (fun _ => Except.ok [echoTool]) 5 8 ⟨[("demo", demoCfg)], []⟩
    "demo" demoCfg [echoTool] rfl rfl rfl rfl

/-- Claim C9: connecting a configured, enabled server whose transport
advertises the tool list `tools` stores exactly those descriptors, and
`get_server_info` on the connected server then reports `tool_count` equal to
their number and the `tools` list itself, unchanged; for a name absent from
the configuration mapping, `get_server_info` fails with the not-found error. -/
theorem describe_roundtrip :
    (∀ (transport : StdioTransport) (now : Nat) (st : ManagerState)
        (server_name : String) (config : MCPServerConfig) (tools : List MCPTool),
      alookup st.mcp_servers server_name = some config → config.enabled = true →
      alookup st.connections server_name = none → transport config = Except.ok tools →
      ∃ st1 info,
        connect_to_server transport now st server_name = Except.ok (st1, true) ∧
        get_server_info st1 server_name = Except.ok info ∧
        info.connected = true ∧ info.tools = some tools ∧
        info.tool_count = some tools.length) ∧
    (∀ (st : ManagerState) (server_name : String),
      alookup st.mcp_servers server_name = none →
      get_server_info st server_name =
        Except.error ("Server \x27" ++ server_name ++ "\x27 not found")) := by
  constructor
  · intro transport now st server_name config tools hcfg hen hnew htr
    refine ⟨{ st with connections := st.connections ++
        [(server_name, { config := config, connected_at := now, tools := tools
                         connection_type := "stdio", url := none })] }, ?_⟩
    have h1 : alookup (st.connections ++
        [(server_name, ({ config := config, connected_at := now, tools := tools
                          connection_type := "stdio", url := none } : MCPConnection))])
        server_name = some { config := config, connected_at := now, tools := tools
                             connection_type := "stdio", url := none } := by
      rw [alookup_append, hnew]; simp [alookup]
    refine ⟨{ name := config.name, description := config.description
              enabled := config.enabled, connected := true
              connected_at := some now, tools := some tools
              tool_count := some tools.length }, ?_, ?_, rfl, rfl, rfl⟩
    · simp [connect_to_server, hnew, hcfg, hen, htr,
        dictInsert_of_alookup_none st.connections server_name _ hnew]
    · simp [get_server_info, hcfg, h1]
  · intro st server_name h
    simp [get_server_info, h]

/-- Claim C9, witness instantiation. -/
theorem describe_roundtrip_witness :
    (∃ st1 info,
      connect_to_server (fun _ => Except.ok [echoTool]) 5 ⟨[("demo", demoCfg)], []⟩
        "demo" = Except.ok (st1, true) ∧
      get_server_info st1 "demo" = Except.ok info ∧
      info.connected = true ∧ info.tools = some [echoTool] ∧
      info.tool_count = some [echoTool].length) ∧
    get_server_info ⟨[], []⟩ "nosuch" =
      Except.error ("Server \x27" ++ "nosuch" ++ "\x27 not found") :=
  ⟨describe_roundtrip.1 (fun _ => Except.ok [echoTool]) 5 ⟨[("demo", demoCfg)], []⟩
      "demo" demoCfg [echoTool] rfl rfl rfl rfl,
   describe_roundtrip.2 ⟨[], []⟩ "nosuch" rfl⟩

/-! ### Tool lookup-table shadowing (Claim C8) -/

theorem alookup_addServerTools (n : String) (ts : List MCPTool)
    (tools : List MCPTool) (mapping : List (String × String)) (t : String) :
    alookup (addServerTools n ts (tools, mapping)).2 t =
      if t ∈ ts.map MCPTool.name then some n else alookup mapping t := by
  induction ts generalizing tools mapping with
  | nil => simp [addServerTools]
  | cons x rest ih =>
      have hstep : addServerTools n (x :: rest) (tools, mapping) =
          addServerTools n rest (tools ++ [x], dictInsert mapping x.name n) := rfl
      rw [hstep, ih]
      by_cases hr : t ∈ rest.map MCPTool.name
      · simp [hr]
      · by_cases hx : x.name = t
        · simp [hr, hx, alookup_dictInsert]
        · have : t ≠ x.name := fun h => hx h.symm
          simp [hr, hx, this, alookup_dictInsert]

theorem alookup_collectToolsAux_last (conns : List (String × MCPConnection))
    (s t : String) (c : MCPConnection)
    (hs : alookup conns s = some c) (ht : t ∈ c.tools.map MCPTool.name)
    (pre : List String) :
    ∀ (tools : List MCPTool) (mapping : List (String × String)),
      alookup (collectToolsAux conns (pre ++ [s]) tools mapping).2 t = some s := by
  induction pre with
  | nil =>
      intro tools mapping
      simp only [List.nil_append, collectToolsAux, hs]
      simp [collectToolsAux, alookup_addServerTools, ht]
  | cons n pre ih =>
      intro tools mapping
      simp only [List.cons_append, collectToolsAux]
      cases h : alookup conns n with
      | none => exact ih tools mapping
      | some c2 => exact ih _ _

/-- Claim C8: in the per-query tool lookup table, whatever servers were
processed earlier in the selection order, a later connected server exposing a
tool name overwrites the earlier entry silently, so the name is routed to the
server processed later. -/
theorem later_server_wins_tool_mapping (conns : List (String × MCPConnection))
    (pre : List String) (s t : String) (c : MCPConnection)
    (hs : alookup conns s = some c) (ht : t ∈ c.tools.map MCPTool.name) :
    alookup (collectTools conns (pre ++ [s])).2 t = some s :=
  alookup_collectToolsAux_last conns s t c hs ht pre [] []

/-- Claim C8, witness instantiation: two connected servers both exposing a
tool named `dup`; the lookup table routes `dup` to the second. -/
theorem later_server_wins_tool_mapping_witness :
    alookup (collectTools
      [("s1", { config := demoCfg, connected_at := 0
                tools := [{ name := "dup", description := "d1", input_schema := "o" }]
                connection_type := "stdio", url := none }),
       ("s2", { config := demoCfg, connected_at := 0
                tools := [{ name := "dup", description := "d2", input_schema := "o" }]
                connection_type := "stdio", url := none })]
      (["s1"] ++ ["s2"])).2 "dup" = some "s2" :=
  later_server_wins_tool_mapping _ ["s1"] "s2" "dup"
    { config := demoCfg, connected_at := 0
      tools := [{ name := "dup", description := "d2", input_schema := "o" }]
      connection_type := "stdio", url := none }
    (by rfl) (by simp)

/-! ### Chained-mode processing (Claims C1, C10) -/

/-- Claim C10: in chained mode, the intermediate reflection completion is
issued only after a successfully executed invocation.  When the invocation
fails at execution, when its name maps to a server that is not connected
(or falsy), and when its name is absent from the lookup table, the
error-tagged result is appended and processing moves directly to the next
invocation with no reflection completion, even when more invocations remain. -/
theorem no_reflection_after_failed_invocation :
    (∀ (llm : LLM) (invoke : Invoke) (conns : List String)
        (mapping : List (String × String)) (tc : ToolCall) (rest : List ToolCall)
        (messages : List Message) (srv e : String),
      alookup mapping tc.name = some srv → srv ≠ "" → conns.contains srv = true →
      invoke srv tc.name tc.input = Except.error e →
      processChainedToolCalls llm invoke conns mapping (tc :: rest) messages =
        (let er : ToolResult :=
          { tool_use_id := tc.id
            content := "Error: Tool execution failed: " ++
              ("Tool execution failed on server \x27" ++ srv ++ "\x27: " ++ e)
            is_error := true }
         let next := processChainedToolCalls llm invoke conns mapping rest
           (messages ++ [userToolResultMsg er])
         (next.1, ChainEvent.invokeTool srv tc.name ::
             ChainEvent.appendHistory (userToolResultMsg er) :: next.2))) ∧
    (∀ (llm : LLM) (invoke : Invoke) (conns : List String)
        (mapping : List (String × String)) (tc : ToolCall) (rest : List ToolCall)
        (messages : List Message) (srv : String),
      alookup mapping tc.name = some srv → conns.contains srv = false →
      processChainedToolCalls llm invoke conns mapping (tc :: rest) messages =
        (let er : ToolResult :=
          { tool_use_id := tc.id
            content := "Error: Server \x27" ++ srv ++ "\x27 not connected or tool not found"
            is_error := true }
         let next := processChainedToolCalls llm invoke conns mapping rest
           (messages ++ [userToolResultMsg er])
         (next.1, ChainEvent.appendHistory (userToolResultMsg er) :: next.2))) ∧
    (∀ (llm : LLM) (invoke : Invoke) (conns : List String)
        (mapping : List (String × String)) (tc : ToolCall) (rest : List ToolCall)
        (messages : List Message),
      alookup mapping tc.name = none →
      processChainedToolCalls llm invoke conns mapping (tc :: rest) messages =
        (let er : ToolResult :=
          { tool_use_id := tc.id
            content := "Error: Server \x27None\x27 not connected or tool not found"
            is_error := true }
         let next := processChainedToolCalls llm invoke conns mapping rest
           (messages ++ [userToolResultMsg er])
         (next.1, ChainEvent.appendHistory (userToolResultMsg er) :: next.2))) := by
  refine ⟨?_, ?_, ?_⟩
  · intro llm invoke conns mapping tc rest messages srv e hmap hne hc hinv
    have hm : srv ∈ conns := by simpa using hc
    simp [processChainedToolCalls, hmap, hne, hm, execute_tool, hinv]
  · intro llm invoke conns mapping tc rest messages srv hmap hc
    have hm : srv ∉ conns := by simpa using hc
    simp [processChainedToolCalls, hmap, hm]
  · intro llm invoke conns mapping tc rest messages hmap
    simp [processChainedToolCalls, hmap]

/-- Claim C10, witness instantiation (a failing invocation, an unconnected
server, and an unmapped tool name, each followed by one more pending call). -/
theorem no_reflection_after_failed_invocation_witness :
    processChainedToolCalls reflLLM failInvoke ["s1"] [("a", "s1")]
        [⟨"a", "ia", "1"⟩, ⟨"a", "ib", "2"⟩] [] =
      (let er : ToolResult :=
        { tool_use_id := "1"
          content := "Error: Tool execution failed: " ++
            ("Tool execution failed on server \x27" ++ "s1" ++ "\x27: " ++ "boom")
          is_error := true }
       let next := processChainedToolCalls reflLLM failInvoke ["s1"] [("a", "s1")]
         [⟨"a", "ib", "2"⟩] ([] ++ [userToolResultMsg er])
       (next.1, ChainEvent.invokeTool "s1" "a" ::
          ChainEvent.appendHistory (userToolResultMsg er) :: next.2)) ∧
    processChainedToolCalls reflLLM failInvoke [] [("a", "s1")]
        [⟨"a", "ia", "1"⟩, ⟨"a", "ib", "2"⟩] [] =
      (let er : ToolResult :=
        { tool_use_id := "1"
          content := "Error: Server \x27" ++ "s1" ++ "\x27 not connected or tool not found"
          is_error := true }
       let next := processChainedToolCalls reflLLM failInvoke [] [("a", "s1")]
         [⟨"a", "ib", "2"⟩] ([] ++ [userToolResultMsg er])
       (next.1, ChainEvent.appendHistory (userToolResultMsg er) :: next.2)) ∧
    processChainedToolCalls reflLLM failInvoke ["s1"] []
        [⟨"a", "ia", "1"⟩, ⟨"a", "ib", "2"⟩] [] =
      (let er : ToolResult :=
        { tool_use_id := "1"
          content := "Error: Server \x27None\x27 not connected or tool not found"
          is_error := true }
       let next := processChainedToolCalls reflLLM failInvoke ["s1"] []
         [⟨"a", "ib", "2"⟩] ([] ++ [userToolResultMsg er])
       (next.1, ChainEvent.appendHistory (userToolResultMsg er) :: next.2)) :=
  ⟨no_reflection_after_failed_invocation.1 reflLLM failInvoke ["s1"] [("a", "s1")]
      ⟨"a", "ia", "1"⟩ [⟨"a", "ib", "2"⟩] [] "s1" "boom" rfl (by decide) rfl rfl,
   no_reflection_after_failed_invocation.2.1 reflLLM failInvoke [] [("a", "s1")]
      ⟨"a", "ia", "1"⟩ [⟨"a", "ib", "2"⟩] [] "s1" rfl rfl,
   no_reflection_after_failed_invocation.2.2 reflLLM failInvoke ["s1"] []
      ⟨"a", "ia", "1"⟩ [⟨"a", "ib", "2"⟩] [] rfl⟩

/-- Claim C1: in chained mode, when one response requests invocations
[A, B, C] and every execution succeeds, the processor executes them one at a
time in exactly the emission order, appends each result to the history
immediately after its execution, and issues an intermediate no-tools
reflection completion after A and after B (more invocations remain) but not
after the last invocation C. -/
theorem chained_executes_in_order_with_reflection
    (llm : LLM) (invoke : Invoke) (conns : List String)
    (mapping : List (String × String)) (A B C : ToolCall) (messages : List Message)
    (sA sB sC : String) (rA rB rC : ToolResultContent) (ir1 ir2 : List ContentBlock)
    (hA : alookup mapping A.name = some sA) (hAne : sA ≠ "") (hAc : sA ∈ conns)
    (hB : alookup mapping B.name = some sB) (hBne : sB ≠ "") (hBc : sB ∈ conns)
    (hC : alookup mapping C.name = some sC) (hCne : sC ≠ "") (hCc : sC ∈ conns)
    (hiA : invoke sA A.name A.input = Except.ok rA)
    (hiB : invoke sB B.name B.input = Except.ok rB)
    (hiC : invoke sC C.name C.input = Except.ok rC)
    (hr1 : llm (messages ++ [userToolResultMsg (okToolResult A rA)])
      LLMCallKind.reflect = Except.ok ir1)
    (hr2 : llm (messages ++ [userToolResultMsg (okToolResult A rA), assistantMsg ir1,
      userToolResultMsg (okToolResult B rB)]) LLMCallKind.reflect = Except.ok ir2) :
    processChainedToolCalls llm invoke conns mapping [A, B, C] messages =
      (messages ++ [userToolResultMsg (okToolResult A rA), assistantMsg ir1,
                    userToolResultMsg (okToolResult B rB), assistantMsg ir2,
                    userToolResultMsg (okToolResult C rC)],
       [ChainEvent.invokeTool sA A.name,
        ChainEvent.appendHistory (userToolResultMsg (okToolResult A rA)),
        ChainEvent.reflect,
        ChainEvent.appendHistory (assistantMsg ir1),
        ChainEvent.invokeTool sB B.name,
        ChainEvent.appendHistory (userToolResultMsg (okToolResult B rB)),
        ChainEvent.reflect,
        ChainEvent.appendHistory (assistantMsg ir2),
        ChainEvent.invokeTool sC C.name,
        ChainEvent.appendHistory (userToolResultMsg (okToolResult C rC))]) := by
  simp only [okToolResult] at hr1 hr2
  simp [processChainedToolCalls, execute_tool, okToolResult,
    hA, hAne, hAc, hB, hBne, hBc, hC, hCne, hCc, hiA, hiB, hiC, hr1, hr2]

/-- Claim C1, witness instantiation: three successful invocations on one
connected server, with the reflection stub answering `"refl"`. -/
theorem chained_executes_in_order_with_reflection_witness :
    processChainedToolCalls reflLLM okInvoke ["s1"]
        [("a", "s1"), ("b", "s1"), ("c", "s1")]
        [⟨"a", "ia", "1"⟩, ⟨"b", "ib", "2"⟩, ⟨"c", "ic", "3"⟩] [] =
      ([] ++ [userToolResultMsg (okToolResult ⟨"a", "ia", "1"⟩ (ToolResultContent.raw "ok")),
              assistantMsg [ContentBlock.text "refl"],
              userToolResultMsg (okToolResult ⟨"b", "ib", "2"⟩ (ToolResultContent.raw "ok")),
              assistantMsg [ContentBlock.text "refl"],
              userToolResultMsg (okToolResult ⟨"c", "ic", "3"⟩ (ToolResultContent.raw "ok"))],
       [ChainEvent.invokeTool "s1" "a",
        ChainEvent.appendHistory
          (userToolResultMsg (okToolResult ⟨"a", "ia", "1"⟩ (ToolResultContent.raw "ok"))),
        ChainEvent.reflect,
        ChainEvent.appendHistory (assistantMsg [ContentBlock.text "refl"]),
        ChainEvent.invokeTool "s1" "b",
        ChainEvent.appendHistory
          (userToolResultMsg (okToolResult ⟨"b", "ib", "2"⟩ (ToolResultContent.raw "ok"))),
        ChainEvent.reflect,
        ChainEvent.appendHistory (assistantMsg [ContentBlock.text "refl"]),
        ChainEvent.invokeTool "s1" "c",
        ChainEvent.appendHistory
          (userToolResultMsg (okToolResult ⟨"c", "ic", "3"⟩ (ToolResultContent.raw "ok")))]) :=
  chained_executes_in_order_with_reflection reflLLM okInvoke ["s1"]
    [("a", "s1"), ("b", "s1"), ("c", "s1")]
    ⟨"a", "ia", "1"⟩ ⟨"b", "ib", "2"⟩ ⟨"c", "ic", "3"⟩ []
    "s1" "s1" "s1" (ToolResultContent.raw "ok") (ToolResultContent.raw "ok")
    (ToolResultContent.raw "ok") [ContentBlock.text "refl"] [ContentBlock.text "refl"]
    rfl (by decide) (by decide) rfl (by decide) (by decide) rfl (by decide) (by decide)
    rfl rfl rfl rfl rfl

theorem exceptBind_ok {ε α β : Type} (a : α) (f : α → Except ε β) :
    (do let x ← (Except.ok a : Except ε α); f x) = f a := rfl

theorem exceptBind_error {ε α β : Type} (e : ε) (f : α → Except ε β) :
    (do let x ← (Except.error e : Except ε α); f x) = Except.error e := rfl

/-! ### Batched-mode processing (Claim C2) -/

/-- Claim C2: in batched mode, for one response requesting [A, B, C], the
processor dispatches all three executions while touching neither the history
nor the completion endpoint (its trace holds only the three dispatches, in
order, with no append and no reflection events); a failure of B is collected
as an error-tagged result between the results of A and C; and the outer loop
then appends the three collected results to the history as one combined user
entry, exactly once, before continuing with no intermediate reflection. -/
theorem batch_collects_all_results
    (llm : LLM) (invoke : Invoke) (conns : List String)
    (mapping : List (String × String)) (A B C : ToolCall)
    (sA sB sC : String) (rA rC : ToolResultContent) (e : String)
    (messages : List Message) (rsp : List ContentBlock) (fuel : Nat)
    (hA : alookup mapping A.name = some sA) (hAne : sA ≠ "") (hAc : sA ∈ conns)
    (hB : alookup mapping B.name = some sB) (hBne : sB ≠ "") (hBc : sB ∈ conns)
    (hC : alookup mapping C.name = some sC) (hCne : sC ≠ "") (hCc : sC ∈ conns)
    (hiA : invoke sA A.name A.input = Except.ok rA)
    (hiB : invoke sB B.name B.input = Except.error e)
    (hiC : invoke sC C.name C.input = Except.ok rC)
    (hrsp : llm messages LLMCallKind.main = Except.ok rsp)
    (htc : toolUsesOf rsp = [A, B, C]) :
    processBatchToolCalls invoke conns mapping [A, B, C] =
      ([okToolResult A rA,
        errToolResult B.id ("Error: Tool execution failed: " ++
          ("Tool execution failed on server \x27" ++ sB ++ "\x27: " ++ e)),
        okToolResult C rC],
       [ChainEvent.invokeTool sA A.name, ChainEvent.invokeTool sB B.name,
        ChainEvent.invokeTool sC C.name]) ∧
    processLoopFuel llm invoke conns mapping false (fuel + 1) messages =
      Except.map
        (fun out => { final := out.final, messages := out.messages
                      iterations := out.iterations + 1 })
        (processLoopFuel llm invoke conns mapping false fuel
          (messages ++ [assistantMsg rsp,
            userResultsMsg
              [okToolResult A rA,
               errToolResult B.id ("Error: Tool execution failed: " ++
                 ("Tool execution failed on server \x27" ++ sB ++ "\x27: " ++ e)),
               okToolResult C rC]])) := by
  have hbatch : processBatchToolCalls invoke conns mapping [A, B, C] =
      ([okToolResult A rA,
        errToolResult B.id ("Error: Tool execution failed: " ++
          ("Tool execution failed on server \x27" ++ sB ++ "\x27: " ++ e)),
        okToolResult C rC],
       [ChainEvent.invokeTool sA A.name, ChainEvent.invokeTool sB B.name,
        ChainEvent.invokeTool sC C.name]) := by
    simp [processBatchToolCalls, execute_tool, okToolResult, errToolResult,
      hA, hAne, hAc, hB, hBne, hBc, hC, hCne, hCc, hiA, hiB, hiC]
  refine ⟨hbatch, ?_⟩
  rw [processLoopFuel.eq_2, hrsp, exceptBind_ok]
  simp only [htc, hbatch, userResultsMsg]
  cases hrec : processLoopFuel llm invoke conns mapping false fuel
      (messages ++ [assistantMsg rsp,
        { role := "user", content := MessageContent.toolResults
            [okToolResult A rA,
             errToolResult B.id ("Error: Tool execution failed: " ++
               ("Tool execution failed on server \x27" ++ sB ++ "\x27: " ++ e)),
             okToolResult C rC] }]) with
  | error err => simp [hrec, Except.map, exceptBind_error]
  | ok out => simp [hrec, Except.map, exceptBind_ok]

/-- Claim C2, witness instantiation: tools a, b, c on one connected server
with b failing; one batched loop step with zero remaining budget. -/
theorem batch_collects_all_results_witness :
    processBatchToolCalls failBInvoke ["s1"] [("a", "s1"), ("b", "s1"), ("c", "s1")]
        [⟨"a", "ia", "1"⟩, ⟨"b", "ib", "2"⟩, ⟨"c", "ic", "3"⟩] =
      ([okToolResult ⟨"a", "ia", "1"⟩ (ToolResultContent.raw "Ra"),
        errToolResult "2" ("Error: Tool execution failed: " ++
          ("Tool execution failed on server \x27" ++ "s1" ++ "\x27: " ++ "boom")),
        okToolResult ⟨"c", "ic", "3"⟩ (ToolResultContent.raw "Rc")],
       [ChainEvent.invokeTool "s1" "a", ChainEvent.invokeTool "s1" "b",
        ChainEvent.invokeTool "s1" "c"]) ∧
    processLoopFuel batchWitnessLLM failBInvoke ["s1"]
        [("a", "s1"), ("b", "s1"), ("c", "s1")] false 1 [] =
      Except.map
        (fun out => { final := out.final, messages := out.messages
                      iterations := out.iterations + 1 })
        (processLoopFuel batchWitnessLLM failBInvoke ["s1"]
          [("a", "s1"), ("b", "s1"), ("c", "s1")] false 0
          ([] ++ [assistantMsg [ContentBlock.toolUse ⟨"a", "ia", "1"⟩,
                    ContentBlock.toolUse ⟨"b", "ib", "2"⟩,
                    ContentBlock.toolUse ⟨"c", "ic", "3"⟩],
            userResultsMsg
              [okToolResult ⟨"a", "ia", "1"⟩ (ToolResultContent.raw "Ra"),
               errToolResult "2" ("Error: Tool execution failed: " ++
                 ("Tool execution failed on server \x27" ++ "s1" ++ "\x27: " ++ "boom")),
               okToolResult ⟨"c", "ic", "3"⟩ (ToolResultContent.raw "Rc")]])) :=
  batch_collects_all_results batchWitnessLLM failBInvoke ["s1"]
    [("a", "s1"), ("b", "s1"), ("c", "s1")]
    ⟨"a", "ia", "1"⟩ ⟨"b", "ib", "2"⟩ ⟨"c", "ic", "3"⟩ "s1" "s1" "s1"
    (ToolResultContent.raw "Ra") (ToolResultContent.raw "Rc") "boom" []
    [ContentBlock.toolUse ⟨"a", "ia", "1"⟩, ContentBlock.toolUse ⟨"b", "ib", "2"⟩,
     ContentBlock.toolUse ⟨"c", "ic", "3"⟩] 0
    rfl (by decide) (by decide) rfl (by decide) (by decide) rfl (by decide) (by decide)
    rfl rfl rfl rfl (by simp [toolUsesOf])

/-! ### Loop termination and error policy (Claims C3, C4) -/

theorem isEmpty_false_of_ne_nil {α : Type} {l : List α} (h : l ≠ []) :
    l.isEmpty = false := by
  cases l with
  | nil => exact absurd rfl h
  | cons a as => rfl

theorem processBatch_cons_ne_nil (invoke : Invoke) (conns : List String)
    (mapping : List (String × String)) (tc : ToolCall) (rest : List ToolCall) :
    (processBatchToolCalls invoke conns mapping (tc :: rest)).1 ≠ [] := by
  rw [processBatchToolCalls.eq_2]
  rcases halo : alookup mapping tc.name with _ | srv
  · simp
  · simp only []
    by_cases h : srv ≠ "" ∧ conns.contains srv = true
    · rw [if_pos h]
      rcases he : execute_tool invoke conns srv tc.name tc.input <;> simp
    · rw [if_neg h]
      simp

theorem processLoopFuel_always_tools (llm : LLM) (invoke : Invoke)
    (conns : List String) (mapping : List (String × String)) (ch : Bool)
    (hmain : ∀ ms, ∃ r, llm ms LLMCallKind.main = Except.ok r ∧ toolUsesOf r ≠ []) :
    ∀ (fuel : Nat) (messages : List Message),
      ∃ ms2, processLoopFuel llm invoke conns mapping ch fuel messages =
        Except.ok { final := none, messages := ms2, iterations := fuel } := by
  intro fuel
  induction fuel with
  | zero => intro messages; exact ⟨messages, rfl⟩
  | succ fuel ih =>
      intro messages
      obtain ⟨r, hr, htc⟩ := hmain messages
      rw [processLoopFuel.eq_2, hr, exceptBind_ok]
      cases h : toolUsesOf r with
      | nil => exact absurd h htc
      | cons a as =>
          simp only [List.isEmpty_cons, Bool.false_eq_true, if_false]
          by_cases hch : ch = true
          · subst hch
            simp only [eq_self_iff_true, if_true]
            obtain ⟨ms2, hrec⟩ := ih
              (processChainedToolCalls llm invoke conns mapping (a :: as)
                (messages ++ [assistantMsg r])).1
            exact ⟨ms2, by rw [hrec, exceptBind_ok]⟩
          · have hchf : ch = false := by
              cases ch
              · rfl
              · exact absurd rfl hch
            subst hchf
            simp only [Bool.false_eq_true, if_false]
            have hne := processBatch_cons_ne_nil invoke conns mapping a as
            simp only [isEmpty_false_of_ne_nil hne, Bool.false_eq_true,
              not_false_eq_true, if_true]
            obtain ⟨ms2, hrec⟩ := ih
              ((messages ++ [assistantMsg r]) ++
                [{ role := "user", content := MessageContent.toolResults
                    (processBatchToolCalls invoke conns mapping (a :: as)).1 }])
            exact ⟨ms2, by rw [hrec, exceptBind_ok]⟩

/-- Claim C3: when the completion oracle requests at least one tool call in
every main-loop response, the loop runs exactly the fixed ceiling of 10
iterations with no natural exit, and `process` returns the text of the one
final no-tools summary completion. -/
theorem process_terminates_at_ceiling_with_summary
    (llm : LLM) (invoke : Invoke) (st : ManagerState) (query : String)
    (names : List String) (ch : Bool) (s : String)
    (hnames : names ≠ [])
    (htools : (collectTools st.connections names).1 ≠ [])
    (hmain : ∀ ms, ∃ r, llm ms LLMCallKind.main = Except.ok r ∧ toolUsesOf r ≠ [])
    (hsum : ∀ ms, llm ms LLMCallKind.summary = Except.ok [ContentBlock.text s]) :
    process_query_with_claude llm invoke st query (some names) ch = s ∧
    ∃ ms2, processLoopFuel llm invoke (st.connections.map Prod.fst)
        (collectTools st.connections names).2 ch max_iterations
        [{ role := "user", content := MessageContent.text query }] =
      Except.ok { final := none, messages := ms2, iterations := max_iterations } := by
  obtain ⟨ms2, hloop⟩ := processLoopFuel_always_tools llm invoke
    (st.connections.map Prod.fst) (collectTools st.connections names).2 ch hmain
    max_iterations [{ role := "user", content := MessageContent.text query }]
  refine ⟨?_, ms2, hloop⟩
  unfold process_query_with_claude
  simp only [isEmpty_false_of_ne_nil hnames, isEmpty_false_of_ne_nil htools,
    Bool.false_eq_true, if_false]
  unfold process_query_attempt
  rw [hloop, exceptBind_ok]
  simp only [max_iterations, ge_iff_le, le_refl, if_true]
  rw [hsum ms2, exceptBind_ok]
  rfl

/-- Claim C3, witness instantiation: a stub that always requests the `echo`
tool; `process` returns the summary stub text. -/
theorem process_terminates_at_ceiling_with_summary_witness :
    process_query_with_claude alwaysToolLLM okInvoke stDemo "q" (some ["demo"]) true =
      "SUMMARY" ∧
    ∃ ms2, processLoopFuel alwaysToolLLM okInvoke (stDemo.connections.map Prod.fst)
        (collectTools stDemo.connections ["demo"]).2 true max_iterations
        [{ role := "user", content := MessageContent.text "q" }] =
      Except.ok { final := none, messages := ms2, iterations := max_iterations } :=
  process_terminates_at_ceiling_with_summary alwaysToolLLM okInvoke stDemo "q"
    ["demo"] true "SUMMARY" (by decide) (by decide)
    (fun ms => ⟨[ContentBlock.toolUse { name := "echo", input := "x", id := "id" }],
      rfl, by decide⟩)
    (fun ms => rfl)

/-- Claim C4, counterexample: an intermediate chained-mode reflection
completion call fails (`"boom"`), yet `process` does not fail — the failure
is caught inside the per-invocation `try` block, recorded as an error-tagged
tool result, and the query completes normally with the answer `"DONE"`.
The second conjunct shows the completion oracle raising at exactly the
message list the reflection call receives; the third shows the reflection
call is indeed issued during the run. -/
theorem reflection_failure_not_fatal_cex :
    process_query_with_claude reflectFailLLM okInvoke stDemo "q" (some ["demo"]) true =
      "DONE" ∧
    reflectFailLLM
      [{ role := "user", content := MessageContent.text "q" },
       assistantMsg [ContentBlock.toolUse ⟨"echo", "x", "id1"⟩,
                     ContentBlock.toolUse ⟨"echo", "y", "id2"⟩],
       userToolResultMsg ⟨"id1", "ok", false⟩]
      LLMCallKind.reflect = Except.error "boom" ∧
    ChainEvent.reflect ∈
      (processChainedToolCalls reflectFailLLM okInvoke ["demo"] [("echo", "demo")]
        [⟨"echo", "x", "id1"⟩, ⟨"echo", "y", "id2"⟩]
        [{ role := "user", content := MessageContent.text "q" },
         assistantMsg [ContentBlock.toolUse ⟨"echo", "x", "id1"⟩,
                       ContentBlock.toolUse ⟨"echo", "y", "id2"⟩]]).2 := by
  refine ⟨by rfl, rfl, by decide⟩

theorem processLoopFuel_ok_of_llm_ok (llm : LLM) (invoke : Invoke)
    (conns : List String) (mapping : List (String × String)) (ch : Bool)
    (hok : ∀ ms k, ∃ r, llm ms k = Except.ok r) :
    ∀ (fuel : Nat) (messages : List Message),
      ∃ out, processLoopFuel llm invoke conns mapping ch fuel messages =
          Except.ok out ∧
        (out.final = none → out.iterations = fuel) := by
  intro fuel
  induction fuel with
  | zero =>
      intro messages
      exact ⟨{ final := none, messages := messages, iterations := 0 }, rfl, fun _ => rfl⟩
  | succ fuel ih =>
      intro messages
      obtain ⟨r, hr⟩ := hok messages LLMCallKind.main
      rw [processLoopFuel.eq_2, hr, exceptBind_ok]
      cases h : toolUsesOf r with
      | nil =>
          refine ⟨{ final := some (joinTexts r)
                    messages := messages ++ [assistantMsg r]
                    iterations := 1 }, ?_, ?_⟩
          · simp [h]
          · intro hnone
            simp at hnone
      | cons a as =>
          simp only [List.isEmpty_cons, Bool.false_eq_true, if_false]
          by_cases hch : ch = true
          · subst hch
            simp only [eq_self_iff_true, if_true]
            obtain ⟨out, hrec, himp⟩ := ih
              (processChainedToolCalls llm invoke conns mapping (a :: as)
                (messages ++ [assistantMsg r])).1
            refine ⟨{ final := out.final, messages := out.messages
                      iterations := out.iterations + 1 },
              by rw [hrec, exceptBind_ok], fun hnone => by rw [himp hnone]⟩
          · have hchf : ch = false := by
              cases ch
              · rfl
              · exact absurd rfl hch
            subst hchf
            simp only [Bool.false_eq_true, if_false]
            have hne := processBatch_cons_ne_nil invoke conns mapping a as
            simp only [isEmpty_false_of_ne_nil hne, Bool.false_eq_true,
              not_false_eq_true, if_true]
            obtain ⟨out, hrec, himp⟩ := ih
              ((messages ++ [assistantMsg r]) ++
                [{ role := "user", content := MessageContent.toolResults
                    (processBatchToolCalls invoke conns mapping (a :: as)).1 }])
            refine ⟨{ final := out.final, messages := out.messages
                      iterations := out.iterations + 1 },
              by rw [hrec, exceptBind_ok], fun hnone => by rw [himp hnone]⟩

/-- Claim C4 (amended): `process` itself never raises.  First, an individual
tool execution failure (and even a failing intermediate reflection
completion) becomes an error-tagged result in the history: as long as the
main-loop and summary completions succeed and the summary response starts
with a text block, no exception reaches the handler, whatever the tool
invoker does.  Second, a failure of the main-loop completion call at any
iteration — i.e. at whatever message list the loop has reached — aborts the
loop with that error.  Third, a loop aborted this way makes the whole
`process` call return (rather than raise) the single error string wrapping
the underlying failure.  Fourth, a failure of the final no-tools summary
completion, issued when the loop has consumed the full iteration ceiling,
likewise makes `process` return the wrapped error string. -/
theorem process_error_policy_amended :
    (∀ (llm : LLM) (invoke : Invoke) (conns : List String)
        (mapping : List (String × String)) (ch : Bool) (q : String),
      (∀ ms k, ∃ r, llm ms k = Except.ok r) →
      (∀ ms r, llm ms LLMCallKind.summary = Except.ok r →
        ∃ t rest2, r = ContentBlock.text t :: rest2) →
      ∃ a, process_query_attempt llm invoke conns mapping ch q = Except.ok a) ∧
    (∀ (llm : LLM) (invoke : Invoke) (conns : List String)
        (mapping : List (String × String)) (ch : Bool) (e : String)
        (fuel : Nat) (messages : List Message),
      llm messages LLMCallKind.main = Except.error e →
      processLoopFuel llm invoke conns mapping ch (fuel + 1) messages =
        Except.error e) ∧
    (∀ (llm : LLM) (invoke : Invoke) (st : ManagerState) (q : String)
        (names : List String) (ch : Bool) (e : String),
      names ≠ [] → (collectTools st.connections names).1 ≠ [] →
      processLoopFuel llm invoke (st.connections.map Prod.fst)
          (collectTools st.connections names).2 ch max_iterations
          [{ role := "user", content := MessageContent.text q }] =
        Except.error e →
      process_query_with_claude llm invoke st q (some names) ch =
        "Error processing query: " ++ e) ∧
    (∀ (llm : LLM) (invoke : Invoke) (st : ManagerState) (q : String)
        (names : List String) (ch : Bool) (e : String) (out : LoopResult),
      names ≠ [] → (collectTools st.connections names).1 ≠ [] →
      processLoopFuel llm invoke (st.connections.map Prod.fst)
          (collectTools st.connections names).2 ch max_iterations
          [{ role := "user", content := MessageContent.text q }] =
        Except.ok out →
      out.iterations ≥ max_iterations →
      llm out.messages LLMCallKind.summary = Except.error e →
      process_query_with_claude llm invoke st q (some names) ch =
        "Error processing query: " ++ e) := by
  refine ⟨?_, ?_, ?_, ?_⟩
  · intro llm invoke conns mapping ch q hok hsum
    obtain ⟨out, hloop, himp⟩ := processLoopFuel_ok_of_llm_ok llm invoke conns mapping
      ch hok max_iterations
      [{ role := "user", content := MessageContent.text q }]
    unfold process_query_attempt
    rw [hloop, exceptBind_ok]
    by_cases hge : out.iterations ≥ max_iterations
    · simp only [hge, if_true]
      obtain ⟨r, hr⟩ := hok out.messages LLMCallKind.summary
      obtain ⟨t, rest2, hts⟩ := hsum out.messages r hr
      rw [hr, exceptBind_ok, hts]
      exact ⟨t, rfl⟩
    · simp only [hge, if_false]
      cases hfin : out.final with
      | none => exact absurd (himp hfin) (Nat.ne_of_lt (by simpa using hge))
      | some f => exact ⟨f, rfl⟩
  · intro llm invoke conns mapping ch e fuel messages hfail
    rw [processLoopFuel.eq_2, hfail, exceptBind_error]
  · intro llm invoke st q names ch e hnames htools hloop
    unfold process_query_with_claude
    simp only [isEmpty_false_of_ne_nil hnames, isEmpty_false_of_ne_nil htools,
      Bool.false_eq_true, if_false]
    unfold process_query_attempt
    rw [hloop, exceptBind_error]
  · intro llm invoke st q names ch e out hnames htools hloop hge hsum
    unfold process_query_with_claude
    simp only [isEmpty_false_of_ne_nil hnames, isEmpty_false_of_ne_nil htools,
      Bool.false_eq_true, if_false]
    unfold process_query_attempt
    rw [hloop, exceptBind_ok]
    simp only [hge, if_true]
    rw [hsum, exceptBind_error]

/-- Claim C4 (amended), witness instantiation: an all-failing tool invoker
does not make the attempt fail; an always-failing completion aborts the
loop; a completion that fails on the second main-loop call (after one
successful tool iteration) yields the wrapped error string; a failing
end-of-loop summary completion yields the wrapped error string. -/
theorem process_error_policy_amended_witness :
    (∃ a, process_query_attempt reflLLM failInvoke ["demo"] [("echo", "demo")]
      true "q" = Except.ok a) ∧
    processLoopFuel errorLLM okInvoke ["demo"] [("echo", "demo")] true (3 + 1)
        [{ role := "user", content := MessageContent.text "q" }] =
      Except.error "down" ∧
    process_query_with_claude failLaterLLM okInvoke stDemo "q" (some ["demo"]) true =
      "Error processing query: " ++ "down2" ∧
    process_query_with_claude summaryFailLLM okInvoke stDemo "q" (some ["demo"]) true =
      "Error processing query: " ++ "sumboom" :=
  ⟨process_error_policy_amended.1 reflLLM failInvoke ["demo"] [("echo", "demo")]
      true "q" (fun ms k => ⟨[ContentBlock.text "refl"], rfl⟩)
      (fun ms r hr => ⟨"refl", [], by
        have h2 : ([ContentBlock.text "refl"] : List ContentBlock) = r :=
          Except.ok.inj hr
        rw [← h2]⟩),
   process_error_policy_amended.2.1 errorLLM okInvoke ["demo"] [("echo", "demo")]
     true "down" 3 [{ role := "user", content := MessageContent.text "q" }] rfl,
   process_error_policy_amended.2.2.1 failLaterLLM okInvoke stDemo "q" ["demo"]
     true "down2" (by decide) (by decide) (by rfl),
   by
     obtain ⟨ms2, hloop⟩ := processLoopFuel_always_tools summaryFailLLM okInvoke
       (stDemo.connections.map Prod.fst) (collectTools stDemo.connections ["demo"]).2
       true
       (fun ms => ⟨[ContentBlock.toolUse { name := "echo", input := "x", id := "id" }],
         rfl, by decide⟩)
       max_iterations [{ role := "user", content := MessageContent.text "q" }]
     exact process_error_policy_amended.2.2.2 summaryFailLLM okInvoke stDemo "q"
       ["demo"] true "sumboom"
       { final := none, messages := ms2, iterations := max_iterations }
       (by decide) (by decide) hloop (Nat.le_refl max_iterations) rfl⟩
